import Mathlib

/-!
# Verification of the webhook authenticator and session liveness tracker

Shallow embedding of the two core components of the `shopify-customer-api`
server (`src/index.js`, and the sorted-fields webhook variant in
`src/unnamed/part_000`):

* the HitPay webhook signature check (`app.post("/hitpay/webhook")`), which
  computes `crypto.createHmac("sha256", HITPAY_WEBHOOK_SALT)` over either the
  raw request body bytes (`index.js`) or the sorted-fields canonical string
  (`part_000`) and compares the hex digest against the claimed signature;
* the in-memory heartbeat registry (`const lastSeen = new Map()`) with its
  `app.post("/heartbeat")` and `app.get("/check")` routes.

HMAC-SHA256 is the Node `crypto` primitive the handlers call; it is embedded
here directly from FIPS 180-4 / RFC 2104 over `Nat` words (32-bit values are
kept reduced with explicit masks) and validated below against the standard
test vectors.  The handlers themselves are translated line by line from the
JavaScript source.
-/

set_option maxRecDepth 1000000

/-! ## SHA-256 (FIPS 180-4), over Nat words -/

/-- Mask keeping the low 32 bits of a word. -/
def M32 : Nat := 0xFFFFFFFF

/-- Lower-case sigma-0 of the message schedule, `ROTR7 xor ROTR18 xor SHR3`.
Rotation uses the doubled word `x * (2^32 + 1)`, i.e. `x + (x <<< 32)`: for
`x < 2^32` each 32-bit rotation is a plain right shift of the double.  The
result is not masked; bits at and above position 32 are garbage that every
consumer absorbs, because sums are reduced with `&&& M32` and carries in
addition only travel upward. -/
def bsig0 (x : Nat) : Nat :=
  let y := x * 4294967297
  (y >>> 7) ^^^ (y >>> 18) ^^^ (x >>> 3)

/-- Lower-case sigma-1, `ROTR17 xor ROTR19 xor SHR10`, same conventions. -/
def bsig1 (x : Nat) : Nat :=
  let y := x * 4294967297
  (y >>> 17) ^^^ (y >>> 19) ^^^ (x >>> 10)

/-- Upper-case sigma-0, `ROTR2 xor ROTR13 xor ROTR22`, same conventions. -/
def usig0 (x : Nat) : Nat :=
  let y := x * 4294967297
  (y >>> 2) ^^^ (y >>> 13) ^^^ (y >>> 22)

/-- Upper-case sigma-1, `ROTR6 xor ROTR11 xor ROTR25`, same conventions. -/
def usig1 (x : Nat) : Nat :=
  let y := x * 4294967297
  (y >>> 6) ^^^ (y >>> 11) ^^^ (y >>> 25)

/-- The choice function `Ch(x,y,z) = (x and y) xor (not x and z)`, in the
equivalent branchless form `z xor (x and (y xor z))`. -/
def chF (x y z : Nat) : Nat := z ^^^ (x &&& (y ^^^ z))

/-- The majority function `Maj(x,y,z)`, in the equivalent form
`((x xor y) and (x xor z)) xor x`. -/
def majF (x y z : Nat) : Nat := ((x ^^^ y) &&& (x ^^^ z)) ^^^ x

/-- The 64 round constants of FIPS 180-4 (the hex constants 0x428a2f98,
0x71374491, ..., 0xc67178f2 — the fractional parts of the cube roots of the
first 64 primes — written in decimal). -/
def sha256K : List Nat :=
  [1116352408, 1899447441, 3049323471, 3921009573, 961987163, 1508970993,
   2453635748, 2870763221, 3624381080, 310598401, 607225278, 1426881987,
   1925078388, 2162078206, 2614888103, 3248222580, 3835390401, 4022224774,
   264347078, 604807628, 770255983, 1249150122, 1555081692, 1996064986,
   2554220882, 2821834349, 2952996808, 3210313671, 3336571891, 3584528711,
   113926993, 338241895, 666307205, 773529912, 1294757372, 1396182291,
   1695183700, 1986661051, 2177026350, 2456956037, 2730485921, 2820302411,
   3259730800, 3345764771, 3516065817, 3600352804, 4094571909, 275423344,
   430227734, 506948616, 659060556, 883997877, 958139571, 1322822218,
   1537002063, 1747873779, 1955562222, 2024104815, 2227730452, 2361852424,
   2428436474, 2756734187, 3204031479, 3329325298]

/-- The eight 32-bit working variables a..h of FIPS 180-4. -/
structure Sha2St where
  a : Nat
  b : Nat
  c : Nat
  d : Nat
  e : Nat
  f : Nat
  g : Nat
  h : Nat
deriving DecidableEq

/-- Rounds 16..63: the window `w0..w15` holds the schedule words
`W[i-16..i-1]`; each step derives the next schedule word and performs one
round.  The remaining round constants arrive in `ks`. -/
def roundsRest (ks : List Nat)
    (a b c d e f g h : Nat)
    (w0 w1 w2 w3 w4 w5 w6 w7 w8 w9 w10 w11 w12 w13 w14 w15 : Nat) : Sha2St :=
  match ks with
  | [] => ⟨a, b, c, d, e, f, g, h⟩
  | k :: ks =>
    let x := (bsig1 w14 + w9 + bsig0 w1 + w0) &&& M32
    let t1 := h + usig1 e + chF e f g + k + x
    let t2 := usig0 a + majF a b c
    roundsRest ks ((t1 + t2) &&& M32) a b c ((d + t1) &&& M32) e f g
      w1 w2 w3 w4 w5 w6 w7 w8 w9 w10 w11 w12 w13 w14 w15 x

/-- Rounds 0..15 consume the 16 block words directly, rotating the window so
that after 16 rounds it again holds `W[0..15]` in order. -/
def roundsFirst (ks : List Nat) (n : Nat)
    (a b c d e f g h : Nat)
    (w0 w1 w2 w3 w4 w5 w6 w7 w8 w9 w10 w11 w12 w13 w14 w15 : Nat) : Sha2St :=
  match n, ks with
  | n+1, k :: ks =>
    let t1 := h + usig1 e + chF e f g + k + w0
    let t2 := usig0 a + majF a b c
    roundsFirst ks n ((t1 + t2) &&& M32) a b c ((d + t1) &&& M32) e f g
      w1 w2 w3 w4 w5 w6 w7 w8 w9 w10 w11 w12 w13 w14 w15 w0
  | _, ks => roundsRest ks a b c d e f g h
      w0 w1 w2 w3 w4 w5 w6 w7 w8 w9 w10 w11 w12 w13 w14 w15

/-- The SHA-256 initial hash value. -/
def sha256IV : Sha2St :=
  ⟨0x6a09e667, 0xbb67ae85, 0x3c6ef372, 0xa54ff53a, 0x510e527f, 0x9b05688c, 0x1f83d9ab, 0x5be0cd19⟩

/-- One application of the SHA-256 compression function to a 16-word block
(for a list that is not 16 words long, which never occurs, the initial hash
value is returned, keeping every reachable state field below `2^32`). -/
def sha256Compress (st : Sha2St) (blk : List Nat) : Sha2St :=
  match blk with
  | [w0, w1, w2, w3, w4, w5, w6, w7, w8, w9, w10, w11, w12, w13, w14, w15] =>
    let r := roundsFirst sha256K 16 st.a st.b st.c st.d st.e st.f st.g st.h
      w0 w1 w2 w3 w4 w5 w6 w7 w8 w9 w10 w11 w12 w13 w14 w15
    ⟨(st.a + r.a) &&& M32, (st.b + r.b) &&& M32, (st.c + r.c) &&& M32, (st.d + r.d) &&& M32,
     (st.e + r.e) &&& M32, (st.f + r.f) &&& M32, (st.g + r.g) &&& M32, (st.h + r.h) &&& M32⟩
  | _ => sha256IV

/-- Bytes to big-endian 32-bit words (input length is a multiple of 4). -/
def bytesToWords : List Nat → List Nat
  | b0 :: b1 :: b2 :: b3 :: bs => (((b0 * 256 + b1) * 256 + b2) * 256 + b3) :: bytesToWords bs
  | _ => []

/-- Words to 16-word blocks (input length is a multiple of 16). -/
def wordsToBlocks : List Nat → List (List Nat)
  | w0 :: w1 :: w2 :: w3 :: w4 :: w5 :: w6 :: w7 ::
    w8 :: w9 :: w10 :: w11 :: w12 :: w13 :: w14 :: w15 :: ws =>
      [w0, w1, w2, w3, w4, w5, w6, w7, w8, w9, w10, w11, w12, w13, w14, w15] :: wordsToBlocks ws
  | _ => []

/-- SHA-256 padding: append `0x80`, zeros up to 56 mod 64, and the 64-bit
big-endian bit length (written with division and remainder by powers of two). -/
def padBytes (msg : List Nat) : List Nat :=
  msg ++ 0x80 :: List.replicate ((64 - (msg.length + 9) % 64) % 64) 0 ++
    [msg.length * 8 / 0x100000000000000 % 256, msg.length * 8 / 0x1000000000000 % 256,
     msg.length * 8 / 0x10000000000 % 256, msg.length * 8 / 0x100000000 % 256,
     msg.length * 8 / 0x1000000 % 256, msg.length * 8 / 0x10000 % 256,
     msg.length * 8 / 0x100 % 256, msg.length * 8 % 256]

/-- The final SHA-256 state after absorbing a byte message. -/
def sha256St (msg : List Nat) : Sha2St :=
  (wordsToBlocks (bytesToWords (padBytes msg))).foldl sha256Compress sha256IV

/-- The four big-endian bytes of a 32-bit word. -/
def wordToBytes (w : Nat) : List Nat :=
  [w / 0x1000000 % 256, w / 0x10000 % 256, w / 0x100 % 256, w % 256]

/-- The 32 digest bytes of a final state: the eight words, big-endian. -/
def digestBytesSt (st : Sha2St) : List Nat :=
  wordToBytes st.a ++ wordToBytes st.b ++ wordToBytes st.c ++ wordToBytes st.d ++
  wordToBytes st.e ++ wordToBytes st.f ++ wordToBytes st.g ++ wordToBytes st.h

/-- SHA-256 digest of a byte list, as its 32 bytes. -/
def sha256 (msg : List Nat) : List Nat :=
  digestBytesSt (sha256St msg)

/-- The bytes of an ASCII string (each scalar value below 128, so UTF-8 and
code points agree; every string hashed by the handlers here is ASCII). -/
def asciiBytes (s : String) : List Nat := s.data.map Char.toNat

/-- HMAC-SHA256 (RFC 2104): hash the key if longer than the 64-byte block,
zero-pad it, and digest `opad-block ++ H(ipad-block ++ msg)`.  This is what
`crypto.createHmac("sha256", key).update(msg).digest()` computes. -/
def hmacSha256 (key msg : List Nat) : List Nat :=
  let k := if key.length > 64 then sha256 key else key
  let kb := k ++ List.replicate (64 - k.length) 0
  sha256 ((kb.map (fun b => b ^^^ 0x5c)) ++ sha256 ((kb.map (fun b => b ^^^ 0x36)) ++ msg))

/-- Lower-case hex digit for a value below 16. -/
def hexDigit (n : Nat) : Char :=
  if n < 10 then Char.ofNat (48 + n) else Char.ofNat (87 + n)

/-- Lower-case hex rendering of a byte list, two digits per byte. -/
def bytesToHex (bs : List Nat) : String :=
  String.mk (bs.flatMap (fun b => [hexDigit (b / 16), hexDigit (b % 16)]))

/-- The hex HMAC digest string that
`crypto.createHmac("sha256", key).update(msg).digest("hex")` returns. -/
def hexHmac (key msg : List Nat) : String :=
  bytesToHex (hmacSha256 key msg)

/-! ## The webhook handlers -/

/-- Outcome of a webhook signature check: `verified` is the 200 path,
`rejected` the 401/403 authentication-failure response. -/
inductive WebhookResult where
  | verified
  | rejected
deriving DecidableEq

/-- The raw-body webhook handler of `index.js`:

```
const sigHeader = req.get("x-hitpay-signature") || "";
const rawBody = req.body;
const expected = crypto.createHmac("sha256", HITPAY_WEBHOOK_SALT)
  .update(rawBody).digest("hex");
if (expected !== sigHeader) return res.status(401).send("Invalid signature");
```

The body is the exact byte sequence delivered by `express.raw`; a missing
header reads as the empty string. -/
def verifyRawBody (salt : List Nat) (sigHeader : Option String) (body : List Nat) :
    WebhookResult :=
  if hexHmac salt body = sigHeader.getD "" then .verified else .rejected

/-- First value stored under a key in an association list (JS object lookup;
keys of a parsed urlencoded body are unique). -/
def lookupStr : List (String × String) → String → Option String
  | [], _ => none
  | (k, v) :: rest, key => if k = key then some v else lookupStr rest key

/-- Drop the signature field, as `const { hmac, ...fields } = req.body` does:
every property except `hmac`, in unchanged order. -/
def stripKey (body : List (String × String)) (key : String) : List (String × String) :=
  body.filter (fun e => e.1 ≠ key)

/-- The canonical string of the sorted-fields policy, from `part_000`:

```
const sorted = Object.keys(fields).sort().map(k => k + fields[k]).join("");
```

Keys in ascending lexicographic order, each immediately followed by its value,
no separator.  `List.insertionSort` models the JavaScript default string sort
(lexicographic; identical to UTF-16 order on the ASCII field names used). -/
def sortedCanon (fields : List (String × String)) : String :=
  String.join (((fields.map Prod.fst).insertionSort (fun a b => a ≤ b)).map
    (fun k => k ++ (lookupStr fields k).getD ""))

/-- The sorted-fields webhook handler of `part_000`:

```
const { hmac, ...fields } = req.body;
const sorted = Object.keys(fields).sort().map(k => k + fields[k]).join("");
const digest = crypto.createHmac("sha256", HITPAY_WEBHOOK_SALT)
  .update(sorted).digest("hex");
if (digest !== hmac) return res.status(403).send("Invalid signature");
```

A missing `hmac` field is `undefined`, which never equals the digest string. -/
def verifySortedFields (salt : List Nat) (body : List (String × String)) : WebhookResult :=
  if some (hexHmac salt (asciiBytes (sortedCanon (stripKey body "hmac")))) =
      lookupStr body "hmac" then .verified else .rejected

/-! ## The liveness tracker -/

/-- A request-supplied `sessionId`: either a JavaScript string, or any
non-string value (missing field, number, object, ...), which the handlers
reject with the `typeof sessionId !== "string"` guard. -/
inductive ReqVal where
  | str (s : String)
  | other
deriving DecidableEq

/-- The `lastSeen` map: sessionId to the `Date.now()` timestamp of the last
heartbeat.  Association list in insertion order, as a JS `Map`. -/
abbrev Registry := List (String × Int)

/-- `Map.prototype.set`: overwrite the existing entry in place, or append a
fresh one at the end. -/
def mapSet : Registry → String → Int → Registry
  | [], k, v => [(k, v)]
  | (k1, v1) :: rest, k, v =>
    if k1 = k then (k1, v) :: rest else (k1, v1) :: mapSet rest k v

/-- `Map.prototype.get` (with `has` folded in: `none` exactly when absent). -/
def mapGet : Registry → String → Option Int
  | [], _ => none
  | (k1, v1) :: rest, k => if k1 = k then some v1 else mapGet rest k

/-- `Map.prototype.delete`: remove the entry under a key, if present. -/
def mapDelete : Registry → String → Registry
  | [], _ => []
  | (k1, v1) :: rest, k => if k1 = k then rest else (k1, v1) :: mapDelete rest k

/-- Response of the heartbeat route: `ok` is `200 { ok: true }`,
`badRequest` the 400 validation error. -/
inductive HbResult where
  | ok
  | badRequest
deriving DecidableEq

/-- Response of the check route: `trigger b` is `200 { trigger: b }`,
`badRequest` the 400 validation error. -/
inductive CheckResult where
  | trigger (b : Bool)
  | badRequest
deriving DecidableEq

/-- `app.post("/heartbeat")`:

```
const { sessionId } = req.body;
if (typeof sessionId !== "string") return res.status(400).json(...);
lastSeen.set(sessionId, Date.now());
res.json({ ok: true });
```
-/
def heartbeat (now : Int) (sessionId : ReqVal) (reg : Registry) : HbResult × Registry :=
  match sessionId with
  | .str s => (.ok, mapSet reg s now)
  | .other => (.badRequest, reg)

/-- `app.get("/check")`:

```
const sessionId = req.query.sessionId;
if (typeof sessionId !== "string") return res.status(400).json(...);
if (!lastSeen.has(sessionId)) return res.json({ trigger: false });
const last = lastSeen.get(sessionId);
const timedOut = (Date.now() - last) > 3500;
if (timedOut) { lastSeen.delete(sessionId); return res.json({ trigger: true }); }
return res.json({ trigger: false });
```
-/
def check (now : Int) (sessionId : ReqVal) (reg : Registry) : CheckResult × Registry :=
  match sessionId with
  | .other => (.badRequest, reg)
  | .str s =>
    match mapGet reg s with
    | none => (.trigger false, reg)
    | some last =>
      if now - last > 3500 then (.trigger true, mapDelete reg s)
      else (.trigger false, reg)

/-- Registry states reachable from the empty map at server start through the
two routes, with arbitrary clock values and request inputs. -/
inductive Reach : Registry → Prop where
  | init : Reach []
  | hb (now : Int) (v : ReqVal) {r : Registry} : Reach r → Reach (heartbeat now v r).2
  | chk (now : Int) (v : ReqVal) {r : Registry} : Reach r → Reach (check now v r).2

/-- The keys currently tracked. -/
def regKeys (r : Registry) : List String := r.map Prod.fst

/-! ## The raw-body example of the spec: secret `"s"`, body with field a mapped to 1 -/

/-- The secret of the raw-body example in the spec: the byte of `"s"`. -/
def sBytes : List Nat := asciiBytes "s"

/-- The body of the raw-body example in the spec, the seven JSON bytes
(braces written as hex escapes). -/
def specBody : List Nat := asciiBytes "\x7b\"a\":1\x7d"

/-- The SHA-256 state after the HMAC inner-pad block for key `"s"`. -/
def innerMid : Sha2St :=
  sha256Compress sha256IV (bytesToWords ((sBytes ++ List.replicate 63 0).map (fun b => b ^^^ 0x36)))

/-- The SHA-256 state after the HMAC outer-pad block for key `"s"`. -/
def outerMid : Sha2St :=
  sha256Compress sha256IV (bytesToWords ((sBytes ++ List.replicate 63 0).map (fun b => b ^^^ 0x5c)))

/-- Big-endian packing of four bytes into a word, as `bytesToWords` produces it. -/
def w4 (x y z w : Nat) : Nat := ((x * 256 + y) * 256 + z) * 256 + w

/-- The final SHA-256 state of `hmacSha256 sBytes` on a 7-byte message,
unrolled: the two pad-block compressions are the constants
`innerMid`/`outerMid`, so each evaluation costs two compressions instead of
four.  `bytes7_eq` proves that rendering its digest bytes in hex agrees with
`hexHmac` definitionally; the unrolled form exists only to keep the exhaustive
1785-mutation check inside the kernel time budget. -/
def stFast7 : List Nat → Sha2St
  | [b0, b1, b2, b3, b4, b5, b6] =>
    let q := sha256Compress innerMid
      [w4 b0 b1 b2 b3, ((b4 * 256 + b5) * 256 + b6) * 256 + 128,
       0, 0, 0, 0, 0, 0, 0, 0, 0, 0, 0, 0, 0, 568]
    sha256Compress outerMid
      [q.a, q.b, q.c, q.d, q.e, q.f, q.g, q.h, 0x80000000, 0, 0, 0, 0, 0, 0, 768]
  | _ => sha256IV

/-- Every single-byte mutation of a body: for each position, every byte value
other than the one already there. -/
def mutations (body : List Nat) : List (List Nat) :=
  (List.range body.length).flatMap (fun i =>
    (List.range 256).filterMap (fun v =>
      if body.getD i 0 = v then none else some (body.set i v)))

/-- Character-by-character short-circuiting equality with a count of the
character comparisons performed: the structural model of the generic string
comparison (`expected !== sigHeader`, `digest !== hmac`) the handlers use.  A
constant-time comparison would perform work depending only on the lengths. -/
def eqSteps : List Char → List Char → Bool × Nat
  | [], [] => (true, 0)
  | _ :: _, [] => (false, 0)
  | [], _ :: _ => (false, 0)
  | a :: as, b :: bs =>
    if a = b then ((eqSteps as bs).1, (eqSteps as bs).2 + 1) else (false, 1)

/-- No duplicate keys: the invariant a JS `Map` maintains by construction. -/
def NodupKeys (r : Registry) : Prop := (regKeys r).Nodup

/-! ## The exhaustive single-byte mutation check for the raw-body example -/

/-- A mutated body hashes (under key `"s"`) to digest bytes other than those
of the original body. -/
def mutOk (b : List Nat) : Bool :=
  decide (digestBytesSt (stFast7 b) ≠ digestBytesSt (stFast7 specBody))

/-! ## Standard test vectors for the crypto embedding -/

/-- FIPS 180-4 vector: the digest of `"abc"`. -/
theorem sha256_vector_abc : sha256 (asciiBytes "abc") =
    [0xba, 0x78, 0x16, 0xbf, 0x8f, 0x01, 0xcf, 0xea, 0x41, 0x41, 0x40, 0xde, 0x5d, 0xae, 0x22, 0x23,
     0xb0, 0x03, 0x61, 0xa3, 0x96, 0x17, 0x7a, 0x9c, 0xb4, 0x10, 0xff, 0x61, 0xf2, 0x00, 0x15, 0xad] := by
  decide!

/-- FIPS 180-4 vector: the digest of the empty message. -/
theorem sha256_vector_empty : bytesToHex (sha256 []) =
    "e3b0c44298fc1c149afbf4c8996fb92427ae41e4649b934ca495991b7852b855" := by
  decide!

/-- FIPS 180-4 two-block vector: a 56-byte message that pads to two blocks. -/
theorem sha256_vector_two_blocks :
    bytesToHex (sha256 (asciiBytes "abcdbcdecdefdefgefghfghighijhijkijkljklmklmnlmnomnopnopq")) =
    "248d6a61d20638b8e5c026930c3e6039a33ce45964ff2167f6ecedd419db06c1" := by
  decide!

/-- RFC 4231 test case 2: short key, key shorter than the block. -/
theorem hmac_vector_rfc4231_case2 :
    hexHmac (asciiBytes "Jefe") (asciiBytes "what do ya want for nothing?") =
    "5bdcc146bf60754e6a042426089575c75a003f089d2739839dec58b964ec3843" := by
  decide!

/-- RFC 4231 test case 6: a 131-byte key, longer than the block, so the key is
hashed first — exercising the other branch of `hmacSha256`. -/
theorem hmac_vector_rfc4231_case6 :
    hexHmac (List.replicate 131 0xaa)
      (asciiBytes "Test Using Larger Than Block-Size Key - Hash Key First") =
    "60e431591ee0b67f0d8a26aacbf5b77f8e0bc6213728c5140546040f0ee37f54" := by
  decide!

/-- Recombining the four big-endian bytes of a 32-bit value gives it back. -/
theorem roundtrip_eq (y : Nat) (h : y < 4294967296) :
    ((y / 0x1000000 % 256 * 256 + y / 0x10000 % 256) * 256 + y / 0x100 % 256) * 256 + y % 256 =
      y := by
  omega

/-- Every field of a compression output is below `2^32`. -/
theorem sha256Compress_bounded (st : Sha2St) (blk : List Nat) :
    (sha256Compress st blk).a < 4294967296 ∧ (sha256Compress st blk).b < 4294967296 ∧
    (sha256Compress st blk).c < 4294967296 ∧ (sha256Compress st blk).d < 4294967296 ∧
    (sha256Compress st blk).e < 4294967296 ∧ (sha256Compress st blk).f < 4294967296 ∧
    (sha256Compress st blk).g < 4294967296 ∧ (sha256Compress st blk).h < 4294967296 := by
  unfold sha256Compress
  split
  · refine ⟨?_, ?_, ?_, ?_, ?_, ?_, ?_, ?_⟩ <;>
      exact lt_of_le_of_lt Nat.and_le_right (by decide)
  · exact ⟨by decide, by decide, by decide, by decide, by decide, by decide, by decide, by decide⟩

/-- The length of the webhook salt. -/
theorem sBytes_length : sBytes.length = 1 := rfl

/-- Inner HMAC block chain on a 7-byte message: absorbing the ipad block and
the padded message block from the initial state is one compression from
`innerMid`. -/
theorem inner7_eq (b0 b1 b2 b3 b4 b5 b6 : Nat) :
    sha256St ((sBytes ++ List.replicate 63 0).map (fun b => b ^^^ 0x36) ++
        [b0, b1, b2, b3, b4, b5, b6]) =
      sha256Compress innerMid
        [w4 b0 b1 b2 b3, ((b4 * 256 + b5) * 256 + b6) * 256 + 128,
         0, 0, 0, 0, 0, 0, 0, 0, 0, 0, 0, 0, 0, 568] := by
  simp only [sha256St, padBytes, bytesToWords, wordsToBlocks, w4, sBytes, asciiBytes,
    innerMid, List.map, List.append, List.length, List.replicate, List.foldl,
    List.cons_append, List.nil_append, String.data]

/-- Outer HMAC block chain: absorbing the opad block and the padded 32-byte
inner digest of any reduced state is one compression from `outerMid`. -/
theorem outer_eq (q : Sha2St) (ha : q.a < 4294967296) (hb : q.b < 4294967296)
    (hc : q.c < 4294967296) (hd : q.d < 4294967296) (he : q.e < 4294967296)
    (hf : q.f < 4294967296) (hg : q.g < 4294967296) (hh : q.h < 4294967296) :
    sha256St ((sBytes ++ List.replicate 63 0).map (fun b => b ^^^ 0x5c) ++ digestBytesSt q) =
      sha256Compress outerMid
        [q.a, q.b, q.c, q.d, q.e, q.f, q.g, q.h, 0x80000000, 0, 0, 0, 0, 0, 0, 768] := by
  simp only [sha256St, padBytes, bytesToWords, wordsToBlocks, digestBytesSt, wordToBytes,
    sBytes, asciiBytes, outerMid, List.map, List.append, List.length, List.replicate,
    List.foldl, List.cons_append, List.nil_append, String.data]
  rw [roundtrip_eq _ ha, roundtrip_eq _ hb, roundtrip_eq _ hc, roundtrip_eq _ hd,
    roundtrip_eq _ he, roundtrip_eq _ hf, roundtrip_eq _ hg, roundtrip_eq _ hh]

/-- The unrolled 7-byte HMAC state agrees with the reference `hexHmac` under
key `"s"`: chaining `inner7_eq` and `outer_eq` through the two digests. -/
theorem bytes7_eq (b0 b1 b2 b3 b4 b5 b6 : Nat) :
    hexHmac sBytes [b0, b1, b2, b3, b4, b5, b6] =
      bytesToHex (digestBytesSt (stFast7 [b0, b1, b2, b3, b4, b5, b6])) := by
  have hq := sha256Compress_bounded innerMid
    [w4 b0 b1 b2 b3, ((b4 * 256 + b5) * 256 + b6) * 256 + 128,
     0, 0, 0, 0, 0, 0, 0, 0, 0, 0, 0, 0, 0, 568]
  simp only [hexHmac, hmacSha256, sha256, stFast7, sBytes_length, gt_iff_lt,
    Nat.reduceLT, reduceIte, Nat.reduceSub]
  rw [inner7_eq, outer_eq _ hq.1 hq.2.1 hq.2.2.1 hq.2.2.2.1 hq.2.2.2.2.1
    hq.2.2.2.2.2.1 hq.2.2.2.2.2.2.1 hq.2.2.2.2.2.2.2]

/-- `bytes7_eq` for any list known to have seven entries. -/
theorem bytes7_eq_of_length (l : List Nat) (h : l.length = 7) :
    hexHmac sBytes l = bytesToHex (digestBytesSt (stFast7 l)) := by
  match l, h with
  | [b0, b1, b2, b3, b4, b5, b6], _ => exact bytes7_eq b0 b1 b2 b3 b4 b5 b6

/-- Hex digits of distinct values below 16 are distinct characters. -/
theorem hexDigit_inj : ∀ x < 16, ∀ y < 16, hexDigit x = hexDigit y → x = y := by decide

/-- The two-digit hex rendering is injective on byte lists. -/
theorem flatMap_hexPair_inj : ∀ xs ys : List Nat, (∀ b ∈ xs, b < 256) →
    (∀ b ∈ ys, b < 256) →
    xs.flatMap (fun b => [hexDigit (b / 16), hexDigit (b % 16)]) =
      ys.flatMap (fun b => [hexDigit (b / 16), hexDigit (b % 16)]) → xs = ys := by
  intro xs
  induction xs with
  | nil =>
    intro ys _ _ h
    cases ys with
    | nil => rfl
    | cons y ys => simp at h
  | cons x xs ih =>
    intro ys hx hy h
    cases ys with
    | nil => simp at h
    | cons y ys =>
      simp only [List.flatMap_cons, List.cons_append, List.nil_append, List.cons.injEq] at h
      obtain ⟨h1, h2, h3⟩ := h
      have hxb : x < 256 := hx x (List.mem_cons_self x xs)
      have hyb : y < 256 := hy y (List.mem_cons_self y ys)
      have e1 : x / 16 = y / 16 := hexDigit_inj _ (by omega) _ (by omega) h1
      have e2 : x % 16 = y % 16 := hexDigit_inj _ (by omega) _ (by omega) h2
      have exy : x = y := by omega
      have hrest := ih ys (fun b hb => hx b (List.mem_cons_of_mem x hb))
        (fun b hb => hy b (List.mem_cons_of_mem y hb)) h3
      rw [exy, hrest]

/-- `bytesToHex` is injective on byte lists. -/
theorem bytesToHex_inj (xs ys : List Nat) (hx : ∀ b ∈ xs, b < 256)
    (hy : ∀ b ∈ ys, b < 256) (h : bytesToHex xs = bytesToHex ys) : xs = ys :=
  flatMap_hexPair_inj xs ys hx hy (congrArg String.data h)

/-- Word bytes are bytes. -/
theorem wordToBytes_lt (w : Nat) : ∀ b ∈ wordToBytes w, b < 256 := by
  intro b hb
  simp only [wordToBytes, List.mem_cons, List.not_mem_nil, or_false] at hb
  rcases hb with rfl | rfl | rfl | rfl <;> omega

/-- Digest bytes are bytes. -/
theorem digestBytesSt_lt (st : Sha2St) : ∀ b ∈ digestBytesSt st, b < 256 := by
  intro b hb
  simp only [digestBytesSt, List.mem_append, or_assoc] at hb
  rcases hb with h | h | h | h | h | h | h | h <;> exact wordToBytes_lt _ b h

/-- Single-byte mutations are exactly the sets `body.set i v` at a valid
position with a changed byte value. -/
theorem mem_mutations_intro (body : List Nat) (i v : Nat)
    (hi : i < body.length) (hv : v < 256) (hne : body.getD i 0 ≠ v) :
    body.set i v ∈ mutations body := by
  unfold mutations
  refine List.mem_flatMap.mpr ⟨i, List.mem_range.mpr hi, ?_⟩
  refine List.mem_filterMap.mpr ⟨v, List.mem_range.mpr hv, ?_⟩
  rw [if_neg hne]

/-- A mismatching claimed signature is rejected by the raw-body handler. -/
theorem verifyRawBody_rejected_of_ne (salt body : List Nat) (sig : String)
    (h : sig ≠ hexHmac salt body) :
    verifyRawBody salt (some sig) body = .rejected := by
  unfold verifyRawBody
  rw [Option.getD_some, if_neg (fun hh => h hh.symm)]

theorem digestBytesSt_length (st : Sha2St) : (digestBytesSt st).length = 32 := by
  simp [digestBytesSt, wordToBytes]

theorem sha256_length (msg : List Nat) : (sha256 msg).length = 32 :=
  digestBytesSt_length _

theorem hmacSha256_length (key msg : List Nat) : (hmacSha256 key msg).length = 32 := by
  simp only [hmacSha256]
  exact sha256_length _

theorem flatMap_pair_length (bs : List Nat) (f g : Nat → Char) :
    (bs.flatMap (fun b => [f b, g b])).length = 2 * bs.length := by
  induction bs with
  | nil => simp
  | cons hd tl ih => simp [ih]; ring

theorem hexHmac_length (key msg : List Nat) : (hexHmac key msg).length = 64 := by
  show (bytesToHex (hmacSha256 key msg)).data.length = 64
  simp only [bytesToHex, flatMap_pair_length, hmacSha256_length]

theorem hexHmac_ne_empty (key msg : List Nat) : hexHmac key msg ≠ "" := by
  intro he
  have := congrArg String.length he
  rw [hexHmac_length] at this
  simp at this

/-! ## Association-list and sorting lemmas for the sorted-fields policy -/

theorem lookupStr_eq_some_of_mem (l : List (String × String)) (k : String) (v : String)
    (hnd : (l.map Prod.fst).Nodup) (hmem : (k, v) ∈ l) : lookupStr l k = some v := by
  induction l with
  | nil => simp at hmem
  | cons hd tl ih =>
    obtain ⟨k1, v1⟩ := hd
    simp only [List.map_cons, List.nodup_cons] at hnd
    rcases List.mem_cons.mp hmem with he | hmem2
    · cases he
      simp [lookupStr]
    · have hk1 : ¬ (k1 = k) := by
        intro hh
        subst hh
        exact hnd.1 (List.mem_map.mpr ⟨(k1, v), hmem2, rfl⟩)
      simp [lookupStr, hk1, ih hnd.2 hmem2]

theorem lookupStr_eq_none (l : List (String × String)) (k : String) :
    lookupStr l k = none ↔ k ∉ l.map Prod.fst := by
  induction l with
  | nil => simp [lookupStr]
  | cons hd tl ih =>
    obtain ⟨k1, v1⟩ := hd
    by_cases h1 : k1 = k
    · subst h1
      simp [lookupStr]
    · simp only [lookupStr, if_neg h1, List.map_cons, List.mem_cons, not_or, ih]
      constructor
      · exact fun hh => ⟨fun he => h1 he.symm, hh⟩
      · exact fun hh => hh.2

theorem mem_of_lookupStr_eq_some (l : List (String × String)) (k v : String)
    (h : lookupStr l k = some v) : (k, v) ∈ l := by
  induction l with
  | nil => simp [lookupStr] at h
  | cons hd tl ih =>
    obtain ⟨k1, v1⟩ := hd
    by_cases h1 : k1 = k
    · subst h1
      simp only [lookupStr, if_pos rfl, if_true, eq_self_iff_true, Option.some.injEq] at h
      rw [show v1 = v from by simpa using h]
      exact List.mem_cons_self _ _
    · simp only [lookupStr, if_neg h1] at h
      exact List.mem_cons_of_mem _ (ih h)

theorem lookupStr_perm (l l2 : List (String × String)) (hp : l.Perm l2)
    (hnd : (l.map Prod.fst).Nodup) (k : String) : lookupStr l k = lookupStr l2 k := by
  have hnd2 : (l2.map Prod.fst).Nodup := (hp.map Prod.fst).nodup_iff.mp hnd
  cases hh : lookupStr l k with
  | some v =>
    exact (lookupStr_eq_some_of_mem l2 k v hnd2
      (hp.mem_iff.mp (mem_of_lookupStr_eq_some l k v hh))).symm
  | none =>
    have hk : k ∉ l2.map Prod.fst := fun hmem =>
      ((lookupStr_eq_none l k).mp hh) ((hp.map Prod.fst).mem_iff.mpr hmem)
    exact ((lookupStr_eq_none l2 k).mpr hk).symm

/-- Permutation invariance of the sorted-fields canonical string: fields may
arrive in any order, the canonicalization is the same. -/
theorem sortedCanon_perm (l l2 : List (String × String)) (hp : l.Perm l2)
    (hnd : (l.map Prod.fst).Nodup) : sortedCanon l = sortedCanon l2 := by
  have hkeys : (l.map Prod.fst).Perm (l2.map Prod.fst) := hp.map Prod.fst
  have hsorted : (l.map Prod.fst).insertionSort (fun a b => a ≤ b) =
      (l2.map Prod.fst).insertionSort (fun a b => a ≤ b) := by
    refine List.eq_of_perm_of_sorted ?_ (List.sorted_insertionSort _ _)
      (List.sorted_insertionSort _ _)
    exact (List.perm_insertionSort _ _).trans (hkeys.trans (List.perm_insertionSort _ _).symm)
  unfold sortedCanon
  rw [hsorted]
  congr 1
  exact List.map_congr_left fun k _ => by rw [lookupStr_perm l l2 hp hnd k]

/-- C3: the sorted-fields policy hashes the field set of the request minus the
signature field itself, keys in ascending lexicographic order, each key
immediately concatenated with its value, no separator; the fields
`{b:"2", a:"1"}` canonicalize to `"a1b2"` in either arrival order, and the
accepted signature is exactly the HMAC of `"a1b2"`. -/
theorem C3_sorted_fields_canonicalization :
    (∀ (salt : List Nat) (body : List (String × String)),
      verifySortedFields salt body = .verified ↔
        lookupStr body "hmac" =
          some (hexHmac salt (asciiBytes (sortedCanon (stripKey body "hmac"))))) ∧
    (sortedCanon [("b", "2"), ("a", "1")] = "a1b2" ∧
      sortedCanon [("a", "1"), ("b", "2")] = "a1b2") ∧
    (∀ l l2 : List (String × String), l.Perm l2 → (l.map Prod.fst).Nodup →
      sortedCanon l = sortedCanon l2) ∧
    (∀ (salt : List Nat) (h : String),
      verifySortedFields salt [("hmac", h), ("b", "2"), ("a", "1")] = .verified ↔
        h = hexHmac salt (asciiBytes "a1b2")) := by
  have hiff : ∀ (salt : List Nat) (body : List (String × String)),
      verifySortedFields salt body = .verified ↔
        lookupStr body "hmac" =
          some (hexHmac salt (asciiBytes (sortedCanon (stripKey body "hmac"))))  := by
    intro salt body
    unfold verifySortedFields
    split
    · next hc => simp [hc.symm]
    · next hc =>
      constructor
      · intro hh
        exact WebhookResult.noConfusion hh
      · intro hh
        exact absurd hh.symm hc
  have hcanon : sortedCanon [("b", "2"), ("a", "1")] = "a1b2" := by decide!
  have hcanon2 : sortedCanon [("a", "1"), ("b", "2")] = "a1b2" := by decide!
  refine ⟨hiff, ⟨hcanon, hcanon2⟩, sortedCanon_perm, fun salt h => ?_⟩
  rw [hiff salt [("hmac", h), ("b", "2"), ("a", "1")]]
  have hstrip : stripKey [("hmac", h), ("b", "2"), ("a", "1")] "hmac" =
      [("b", "2"), ("a", "1")] := by
    simp [stripKey]
  rw [hstrip, hcanon]
  simp [lookupStr, eq_comm]

/-- Witness for the quantified parts of C3 at concrete inputs: the two-field example
in both arrival orders, and a concrete verify instance. -/
theorem C3_sorted_fields_canonicalization_witness :
    List.Perm [("b", "2"), ("a", "1")] [("a", "1"), ("b", "2")] ∧
    (List.map Prod.fst [("b", "2"), ("a", "1")]).Nodup ∧
    sortedCanon [("b", "2"), ("a", "1")] = sortedCanon [("a", "1"), ("b", "2")] ∧
    (verifySortedFields [] [("hmac", "x"), ("b", "2"), ("a", "1")] = .verified ↔
      "x" = hexHmac [] (asciiBytes "a1b2")) := by
  refine ⟨by decide, by decide, ?_, C3_sorted_fields_canonicalization.2.2.2 [] "x"⟩
  exact C3_sorted_fields_canonicalization.2.2.1 _ _ (by decide) (by decide)

/-- C4 evidence (the claim is a code bug): the comparison the handlers run is
the generic string inequality, whose structural model `eqSteps` agrees with
string equality, returns `false` on length mismatch without failing — but
short-circuits: on equal-length inputs the number of character comparisons is
the position of the first difference (1 versus 64 on 64-character hex
digests), which is exactly the timing side channel the constant-time
requirement excludes. -/
theorem C4_comparison_short_circuits :
    (∀ s t : String, ((eqSteps s.data t.data).1 = true ↔ s = t)) ∧
    (∀ s t : String, s.data.length ≠ t.data.length → (eqSteps s.data t.data).1 = false) ∧
    ((eqSteps (String.data "0000") (String.data "ffff")).2 = 1 ∧
      (eqSteps (String.data "fff0") (String.data "ffff")).2 = 4 ∧
      (String.data "0000").length = (String.data "ffff").length ∧
      (String.data "fff0").length = (String.data "ffff").length) := by
  have hlist : ∀ as bs : List Char, ((eqSteps as bs).1 = true ↔ as = bs) := by
    intro as
    induction as with
    | nil => intro bs; cases bs <;> simp [eqSteps]
    | cons a as ih =>
      intro bs
      cases bs with
      | nil => simp [eqSteps]
      | cons b bs =>
        by_cases hab : a = b
        · subst hab
          simp [eqSteps, ih bs]
        · simp [eqSteps, hab]
  refine ⟨?_, ?_, by decide, by decide, by decide, by decide⟩
  · intro s t
    rw [hlist s.data t.data]
    exact ⟨fun h => by cases s; cases t; exact congrArg String.mk (by simpa using h), fun h => by rw [h]⟩
  · intro s t hlen
    cases hres : (eqSteps s.data t.data).1 with
    | false => rfl
    | true => exact absurd (congrArg List.length ((hlist s.data t.data).mp hres)) hlen

/-- Witness for the hypothesis-bearing part of C4 at a concrete input: lists of
different lengths compare unequal without failing. -/
theorem C4_comparison_short_circuits_witness :
    (String.data "abc").length ≠ (String.data "ab").length ∧
    (eqSteps (String.data "abc") (String.data "ab")).1 = false ∧
    ((eqSteps (String.data "abc") (String.data "abc")).1 = true ↔ ("abc" : String) = "abc") :=
  ⟨by decide, C4_comparison_short_circuits.2.1 "abc" "ab" (by decide),
    C4_comparison_short_circuits.1 "abc" "abc"⟩

/-- C5: a webhook request whose signature header (raw-body route) or `hmac`
field (sorted-fields route) is missing or does not match the expected digest
is answered with the authentication-failure response, for every body, with no
internal error: the rejection is decided before the payload is ever parsed. -/
theorem C5_missing_or_malformed_rejected :
    (∀ (salt body : List Nat), verifyRawBody salt none body = .rejected) ∧
    (∀ (salt body : List Nat) (sig : String), sig ≠ hexHmac salt body →
      verifyRawBody salt (some sig) body = .rejected) ∧
    (∀ (salt : List Nat) (body : List (String × String)), lookupStr body "hmac" = none →
      verifySortedFields salt body = .rejected) ∧
    (∀ (salt : List Nat) (body : List (String × String)) (h : String),
      lookupStr body "hmac" = some h →
      h ≠ hexHmac salt (asciiBytes (sortedCanon (stripKey body "hmac"))) →
      verifySortedFields salt body = .rejected) := by
  refine ⟨?_, verifyRawBody_rejected_of_ne, ?_, ?_⟩
  · intro salt body
    unfold verifyRawBody
    rw [Option.getD_none, if_neg (hexHmac_ne_empty salt body)]
  · intro salt body hl
    unfold verifySortedFields
    rw [hl, if_neg (by simp)]
  · intro salt body h hl hne
    unfold verifySortedFields
    rw [hl, if_neg (by simpa using fun hh => hne hh.symm)]

/-- Witness for C5 at concrete inputs: a absent header, a wrong-length
signature (its inequality follows from the 64-character digest length, with
no hash evaluation), an absent `hmac` field, and a mismatched `hmac` field. -/
theorem C5_missing_or_malformed_rejected_witness :
    verifyRawBody sBytes none specBody = .rejected ∧
    ("nope" ≠ hexHmac sBytes specBody) ∧
    verifyRawBody sBytes (some "nope") specBody = .rejected ∧
    verifySortedFields sBytes [] = .rejected ∧
    verifySortedFields sBytes [("hmac", "nope"), ("a", "1")] = .rejected := by
  have hne : ("nope" : String) ≠ hexHmac sBytes specBody := by
    intro he
    have := congrArg String.length he
    rw [hexHmac_length] at this
    exact absurd this (by decide)
  have hne2 : ("nope" : String) ≠
      hexHmac sBytes (asciiBytes (sortedCanon (stripKey [("hmac", "nope"), ("a", "1")] "hmac"))) := by
    intro he
    have := congrArg String.length he
    rw [hexHmac_length] at this
    exact absurd this (by decide)
  exact ⟨C5_missing_or_malformed_rejected.1 sBytes specBody, hne,
    C5_missing_or_malformed_rejected.2.1 sBytes specBody "nope" hne,
    C5_missing_or_malformed_rejected.2.2.1 sBytes [] rfl,
    C5_missing_or_malformed_rejected.2.2.2 sBytes [("hmac", "nope"), ("a", "1")] "nope"
      (by simp [lookupStr]) hne2⟩

/-! ## Liveness tracker lemmas and claims -/

theorem mapGet_set_self (r : Registry) (k : String) (v : Int) :
    mapGet (mapSet r k v) k = some v := by
  induction r with
  | nil => simp [mapSet, mapGet]
  | cons hd tl ih =>
    obtain ⟨k1, v1⟩ := hd
    by_cases h : k1 = k
    · simp [mapSet, mapGet, h]
    · simp [mapSet, mapGet, h, ih]

theorem mapGet_set_ne (r : Registry) (k k2 : String) (v : Int) (h : k ≠ k2) :
    mapGet (mapSet r k v) k2 = mapGet r k2 := by
  induction r with
  | nil => simp [mapSet, mapGet, h]
  | cons hd tl ih =>
    obtain ⟨k1, v1⟩ := hd
    by_cases h1 : k1 = k
    · subst h1; simp [mapSet, mapGet, h]
    · simp [mapSet, h1, mapGet, ih]

theorem mapGet_delete_ne (r : Registry) (k k2 : String) (h : k ≠ k2) :
    mapGet (mapDelete r k) k2 = mapGet r k2 := by
  induction r with
  | nil => simp [mapDelete]
  | cons hd tl ih =>
    obtain ⟨k1, v1⟩ := hd
    by_cases h1 : k1 = k
    · subst h1
      have h2 : ¬ (k1 = k2) := fun hh => h hh
      simp [mapDelete, mapGet, h2]
    · by_cases h2 : k1 = k2
      · subst h2
        simp [mapDelete, h1, mapGet]
      · simp [mapDelete, h1, mapGet, h2, ih]

theorem mapGet_eq_none_of_not_mem (r : Registry) (k : String) (h : k ∉ regKeys r) :
    mapGet r k = none := by
  induction r with
  | nil => simp [mapGet]
  | cons hd tl ih =>
    obtain ⟨k1, v1⟩ := hd
    simp only [regKeys, List.map_cons, List.mem_cons, not_or] at h
    have h1 : ¬ (k1 = k) := fun hh => h.1 hh.symm
    simp [mapGet, h1, ih h.2]

theorem mapGet_delete_self (r : Registry) (k : String) (hnd : NodupKeys r) :
    mapGet (mapDelete r k) k = none := by
  induction r with
  | nil => simp [mapDelete, mapGet]
  | cons hd tl ih =>
    obtain ⟨k1, v1⟩ := hd
    simp only [NodupKeys, regKeys, List.map_cons, List.nodup_cons] at hnd
    by_cases h1 : k1 = k
    · subst h1
      simpa [mapDelete] using mapGet_eq_none_of_not_mem tl k1 (by simpa [regKeys] using hnd.1)
    · simp [mapDelete, h1, mapGet, h1, ih hnd.2]

theorem keys_mapSet_mem (r : Registry) (k x : String) (v : Int)
    (hx : x ∈ regKeys (mapSet r k v)) : x = k ∨ x ∈ regKeys r := by
  induction r with
  | nil => simpa [mapSet, regKeys] using hx
  | cons hd tl ih =>
    obtain ⟨k1, v1⟩ := hd
    by_cases h1 : k1 = k
    · subst h1; simpa [mapSet, regKeys] using hx
    · simp only [mapSet, if_neg h1, regKeys, List.map_cons, List.mem_cons] at hx
      rcases hx with hx | hx
      · exact Or.inr (by simp [regKeys, hx])
      · rcases ih hx with hh | hh
        · exact Or.inl hh
        · exact Or.inr (by simp [regKeys]; exact Or.inr (by simpa [regKeys] using hh))

theorem nodupKeys_mapSet (r : Registry) (k : String) (v : Int) (hnd : NodupKeys r) :
    NodupKeys (mapSet r k v) := by
  induction r with
  | nil => simp [mapSet, NodupKeys, regKeys]
  | cons hd tl ih =>
    obtain ⟨k1, v1⟩ := hd
    simp only [NodupKeys, regKeys, List.map_cons, List.nodup_cons] at hnd
    by_cases h1 : k1 = k
    · subst h1
      have hset : mapSet ((k1, v1) :: tl) k1 v = (k1, v) :: tl := by
        simp [mapSet]
      rw [hset]
      simp only [NodupKeys, regKeys, List.map_cons, List.nodup_cons]
      exact ⟨by simpa using hnd.1, hnd.2⟩
    · have htl := ih hnd.2
      simp only [mapSet, if_neg h1, NodupKeys, regKeys, List.map_cons, List.nodup_cons]
      refine ⟨fun hmem => ?_, htl⟩
      rcases keys_mapSet_mem tl k k1 v hmem with hh | hh
      · exact h1 hh
      · exact hnd.1 hh

theorem mapDelete_sublist (r : Registry) (k : String) :
    List.Sublist (mapDelete r k) r := by
  induction r with
  | nil => simp [mapDelete]
  | cons hd tl ih =>
    obtain ⟨k1, v1⟩ := hd
    by_cases h1 : k1 = k
    · simpa [mapDelete, h1] using List.sublist_cons_self (k1, v1) tl
    · simpa [mapDelete, h1] using List.Sublist.cons₂ (k1, v1) ih

theorem nodupKeys_mapDelete (r : Registry) (k : String) (hnd : NodupKeys r) :
    NodupKeys (mapDelete r k) :=
  List.Nodup.sublist (List.Sublist.map Prod.fst (mapDelete_sublist r k)) hnd

theorem countP_key_le_one (r : Registry) (s : String) (hnd : NodupKeys r) :
    List.countP (fun e => e.1 == s) r ≤ 1 := by
  have h1 : List.countP (fun e => e.1 == s) r = (regKeys r).count s := by
    simp [List.count, regKeys, List.countP_map]
    rfl
  rw [h1]
  exact List.nodup_iff_count_le_one.mp hnd s

theorem heartbeat_str (now : Int) (s : String) (r : Registry) :
    heartbeat now (.str s) r = (.ok, mapSet r s now) := rfl

theorem check_none (now : Int) (s : String) (r : Registry)
    (hget : mapGet r s = none) : check now (.str s) r = (.trigger false, r) := by
  simp [check, hget]

theorem check_within (now last : Int) (s : String) (r : Registry)
    (hget : mapGet r s = some last) (hle : now - last ≤ 3500) :
    check now (.str s) r = (.trigger false, r) := by
  simp only [check, hget]
  rw [if_neg (not_lt.mpr hle)]

theorem check_timeout (now last : Int) (s : String) (r : Registry)
    (hget : mapGet r s = some last) (ht : now - last > 3500) :
    check now (.str s) r = (.trigger true, mapDelete r s) := by
  simp only [check, hget]
  rw [if_pos ht]

theorem nodupKeys_heartbeat (now : Int) (v : ReqVal) (r : Registry) (h : NodupKeys r) :
    NodupKeys (heartbeat now v r).2 := by
  cases v with
  | str s => simpa [heartbeat] using nodupKeys_mapSet r s now h
  | other => simpa [heartbeat] using h

theorem nodupKeys_check (now : Int) (v : ReqVal) (r : Registry) (h : NodupKeys r) :
    NodupKeys (check now v r).2 := by
  cases v with
  | other => simpa [check] using h
  | str s =>
    cases hh : mapGet r s with
    | none => simpa [check, hh] using h
    | some last =>
      by_cases ht : now - last > 3500
      · simpa [check, hh, ht] using nodupKeys_mapDelete r s h
      · simpa [check, hh, ht] using h

theorem reach_nodupKeys (r : Registry) (h : Reach r) : NodupKeys r := by
  induction h with
  | init => simp [NodupKeys, regKeys]
  | hb now v hr ih => exact nodupKeys_heartbeat now v _ ih
  | chk now v hr ih => exact nodupKeys_check now v _ ih

/-- C2: for every tracked sessionId whose entry satisfies
`now - lastSeenAt > 3500` ms, a single `check` call removes the entry and
returns `trigger = true`, and an immediately following `check` with no
intervening heartbeat returns `trigger = false` (at any later clock value):
the timeout is never reported twice for the same silent period.  The
`NodupKeys` hypothesis is the JS `Map` shape of the registry, which the
registry invariant lemmas show holds in every reachable state. -/
theorem C2_edge_triggered_timeout (r : Registry) (s : String) (now now2 last : Int)
    (hnd : NodupKeys r) (hget : mapGet r s = some last) (ht : now - last > 3500) :
    check now (.str s) r = (.trigger true, mapDelete r s) ∧
    mapGet (mapDelete r s) s = none ∧
    check now2 (.str s) (mapDelete r s) = (.trigger false, mapDelete r s) := by
  have hdel : mapGet (mapDelete r s) s = none := mapGet_delete_self r s hnd
  exact ⟨check_timeout now last s r hget ht, hdel, check_none now2 s _ hdel⟩

/-- Witness for C2 at a concrete state: session `"a"` heartbeated at time 0
and checked at time 3501. -/
theorem C2_edge_triggered_timeout_witness :
    NodupKeys [("a", (0 : Int))] ∧ mapGet [("a", (0 : Int))] "a" = some 0 ∧
      ((3501 : Int) - 0 > 3500) ∧
      check 3501 (.str "a") [("a", (0 : Int))] = (.trigger true, []) ∧
      check 3501 (.str "a") [] = (.trigger false, []) := by
  have h := C2_edge_triggered_timeout [("a", (0 : Int))] "a" 3501 3501 0
    (by simp [NodupKeys, regKeys]) (by simp [mapGet]) (by norm_num)
  refine ⟨by simp [NodupKeys, regKeys], by simp [mapGet], by norm_num, ?_, ?_⟩
  · simpa [mapDelete] using h.1
  · simpa [mapDelete] using h.2.2

/-- C6: the registry holds at most one entry per sessionId in every state
reachable from the empty registry through heartbeat and check; heartbeat on a
string token always succeeds with `200 ok` and upserts `lastSeenAt = now`,
overwriting rather than duplicating, so no per-id history exists beyond the
single latest timestamp. -/
theorem C6_registry_single_entry :
    (∀ r : Registry, Reach r → ∀ s : String, List.countP (fun e => e.1 == s) r ≤ 1) ∧
    (∀ (r : Registry) (now : Int) (s : String),
      heartbeat now (.str s) r = (.ok, mapSet r s now)) ∧
    (∀ (r : Registry) (now : Int) (s : String), mapGet (mapSet r s now) s = some now) := by
  refine ⟨fun r hr s => countP_key_le_one r s (reach_nodupKeys r hr), fun r now s => rfl,
    fun r now s => mapGet_set_self r s now⟩

/-- Witness for C6 at concrete states: the doubly-heartbeated session `"a"`
keeps a single entry holding the newest timestamp. -/
theorem C6_registry_single_entry_witness :
    Reach (heartbeat 5 (.str "a") (heartbeat 1 (.str "a") []).2).2 ∧
    List.countP (fun e => e.1 == "a") (heartbeat 5 (.str "a") (heartbeat 1 (.str "a") []).2).2 ≤ 1 ∧
    heartbeat 5 (.str "a") [("a", (1 : Int))] = (.ok, mapSet [("a", (1 : Int))] "a" 5) ∧
    mapGet (mapSet [("a", (1 : Int))] "a" 5) "a" = some 5 := by
  have hreach : Reach (heartbeat 5 (.str "a") (heartbeat 1 (.str "a") []).2).2 :=
    Reach.hb 5 (.str "a") (Reach.hb 1 (.str "a") Reach.init)
  exact ⟨hreach, C6_registry_single_entry.1 _ hreach "a",
    C6_registry_single_entry.2.1 [("a", (1 : Int))] 5 "a",
    C6_registry_single_entry.2.2 [("a", (1 : Int))] 5 "a"⟩

/-- C7: a tracked session inside the window (`now - lastSeenAt` at most
3500 ms) reads `trigger = false` and the whole registry — this entry and every
other — is left unchanged. -/
theorem C7_within_window_frame (r : Registry) (s : String) (now last : Int)
    (hget : mapGet r s = some last) (hle : now - last ≤ 3500) :
    check now (.str s) r = (.trigger false, r) :=
  check_within now last s r hget hle

/-- Witness for C7: session `"a"` heartbeated at time 0 and checked at 100. -/
theorem C7_within_window_frame_witness :
    mapGet [("a", (0 : Int))] "a" = some 0 ∧ ((100 : Int) - 0 ≤ 3500) ∧
    check 100 (.str "a") [("a", (0 : Int))] = (.trigger false, [("a", (0 : Int))]) :=
  ⟨by simp [mapGet], by norm_num,
    C7_within_window_frame [("a", (0 : Int))] "a" 100 0 (by simp [mapGet]) (by norm_num)⟩

/-- C8: a sessionId with no registry entry — never heartbeated, or cleared by
an earlier timeout trigger — reads `trigger = false` and the registry is not
modified; the response is the same `trigger = false` an alive (tracked,
within-window) session reads, so the two cases are indistinguishable. -/
theorem C8_untracked_reads_false (r : Registry) (s : String) (now : Int)
    (hget : mapGet r s = none) :
    check now (.str s) r = (.trigger false, r) ∧
    (∀ (r2 : Registry) (s2 : String) (now2 last2 : Int), mapGet r2 s2 = some last2 →
      now2 - last2 ≤ 3500 → (check now2 (.str s2) r2).1 = (check now (.str s) r).1) := by
  refine ⟨check_none now s r hget, fun r2 s2 now2 last2 hget2 hle2 => ?_⟩
  rw [check_none now s r hget, check_within now2 last2 s2 r2 hget2 hle2]

/-- Witness for C8: the never-seen session `"ghost"` against the alive
session `"a"`. -/
theorem C8_untracked_reads_false_witness :
    mapGet ([] : Registry) "ghost" = none ∧
    check 7 (.str "ghost") ([] : Registry) = (.trigger false, []) ∧
    (check 100 (.str "a") [("a", (0 : Int))]).1 = (check 7 (.str "ghost") ([] : Registry)).1 := by
  have h := C8_untracked_reads_false ([] : Registry) "ghost" 7 (by simp [mapGet])
  exact ⟨by simp [mapGet], h.1, h.2 [("a", (0 : Int))] "a" 100 0 (by simp [mapGet]) (by norm_num)⟩

/-- C9 counterexample: the claim says the empty-string sessionId is malformed
input on which both routes return a 400-class validation error, but the code
only tests `typeof sessionId !== "string"`; the empty string passes that test,
so heartbeat upserts it with `200 ok` and check reads `trigger = false`
instead of rejecting it. -/
theorem C9_empty_string_counterexample :
    (heartbeat 0 (.str "") []).1 = .ok ∧
    heartbeat 0 (.str "") [] = (.ok, [("", (0 : Int))]) ∧
    (check 0 (.str "") []).1 = .trigger false := by
  refine ⟨rfl, ?_, rfl⟩
  simp [heartbeat, mapSet]

/-- C9 as amended: only a sessionId of non-string type is rejected with the
400 input-validation error, by both heartbeat and check, without touching the
registry; the empty string is a string and is processed normally (heartbeat
tracks it with `200 ok`). -/
theorem C9_nonstring_rejected :
    (∀ (now : Int) (r : Registry),
      heartbeat now .other r = (.badRequest, r) ∧ check now .other r = (.badRequest, r)) ∧
    (∀ (now : Int) (r : Registry), (heartbeat now (.str "") r).1 = .ok) :=
  ⟨fun now r => ⟨rfl, rfl⟩, fun now r => rfl⟩

/-- C10: heartbeat and check on session `a` do not touch the entry of any
other session `b` — neither its presence nor its stored `lastSeenAt`. -/
theorem C10_per_id_frame (r : Registry) (a b : String) (now : Int) (hab : a ≠ b) :
    mapGet (heartbeat now (.str a) r).2 b = mapGet r b ∧
    mapGet (check now (.str a) r).2 b = mapGet r b := by
  refine ⟨by simpa [heartbeat] using mapGet_set_ne r a b now hab, ?_⟩
  cases hh : mapGet r a with
  | none => simp [check, hh]
  | some last =>
    by_cases ht : now - last > 3500
    · simpa [check, hh, ht] using mapGet_delete_ne r a b hab
    · simp [check, hh, ht]

/-- Witness for C10: operations on `"x"` leave `"y"` untouched. -/
theorem C10_per_id_frame_witness :
    ("x" : String) ≠ "y" ∧
    mapGet (heartbeat 9 (.str "x") [("y", (5 : Int))]).2 "y" = mapGet [("y", (5 : Int))] "y" ∧
    mapGet (check 9 (.str "x") [("y", (5 : Int))]).2 "y" = mapGet [("y", (5 : Int))] "y" := by
  have h := C10_per_id_frame [("y", (5 : Int))] "x" "y" 9 (by decide)
  exact ⟨by decide, h.1, h.2⟩

/-- The accepted signature of the example in the spec, as a constant. -/
theorem hexHmac_spec_example :
    hexHmac sBytes specBody =
      "37beaf650f70b40ec9706929c2e9d835cbd63729988f48781e6383a147215f07" := by
  decide!

theorem all_split (l : List (List Nat)) (p : List Nat → Bool) (n : Nat)
    (h1 : (l.take n).all p = true) (h2 : (l.drop n).all p = true) : l.all p = true := by
  rw [← List.take_append_drop n l, List.all_append, h1, h2]
  rfl

theorem all_drop_chain (l : List (List Nat)) (p : List Nat → Bool) (n : Nat)
    (h1 : ((l.drop n).take 100).all p = true)
    (h2 : (l.drop (n + 100)).all p = true) : (l.drop n).all p = true := by
  refine all_split _ p 100 h1 ?_
  rw [List.drop_drop]
  simpa [Nat.add_comm] using h2

theorem mutChunk0 :
    (((mutations specBody).drop 0).take 100).all mutOk = true := by decide!

theorem mutChunk1 :
    (((mutations specBody).drop 100).take 100).all mutOk = true := by decide!

theorem mutChunk2 :
    (((mutations specBody).drop 200).take 100).all mutOk = true := by decide!

theorem mutChunk3 :
    (((mutations specBody).drop 300).take 100).all mutOk = true := by decide!

theorem mutChunk4 :
    (((mutations specBody).drop 400).take 100).all mutOk = true := by decide!

theorem mutChunk5 :
    (((mutations specBody).drop 500).take 100).all mutOk = true := by decide!

theorem mutChunk6 :
    (((mutations specBody).drop 600).take 100).all mutOk = true := by decide!

theorem mutChunk7 :
    (((mutations specBody).drop 700).take 100).all mutOk = true := by decide!

theorem mutChunk8 :
    (((mutations specBody).drop 800).take 100).all mutOk = true := by decide!

theorem mutChunk9 :
    (((mutations specBody).drop 900).take 100).all mutOk = true := by decide!

theorem mutChunk10 :
    (((mutations specBody).drop 1000).take 100).all mutOk = true := by decide!

theorem mutChunk11 :
    (((mutations specBody).drop 1100).take 100).all mutOk = true := by decide!

theorem mutChunk12 :
    (((mutations specBody).drop 1200).take 100).all mutOk = true := by decide!

theorem mutChunk13 :
    (((mutations specBody).drop 1300).take 100).all mutOk = true := by decide!

theorem mutChunk14 :
    (((mutations specBody).drop 1400).take 100).all mutOk = true := by decide!

theorem mutChunk15 :
    (((mutations specBody).drop 1500).take 100).all mutOk = true := by decide!

theorem mutChunk16 :
    (((mutations specBody).drop 1600).take 100).all mutOk = true := by decide!

theorem mutChunk17 :
    ((mutations specBody).drop 1700).all mutOk = true := by decide!

/-- Every one of the 1785 single-byte mutations of the example body hashes to
a different digest than the body itself: assembled from the kernel-checked
hundred-mutation chunks above. -/
theorem allMutationsDiffer : (mutations specBody).all mutOk = true := by
  have hdrop1600 : ((mutations specBody).drop 1600).all mutOk = true :=
    all_drop_chain _ _ 1600 mutChunk16 mutChunk17
  have hdrop1500 : ((mutations specBody).drop 1500).all mutOk = true :=
    all_drop_chain _ _ 1500 mutChunk15 hdrop1600
  have hdrop1400 : ((mutations specBody).drop 1400).all mutOk = true :=
    all_drop_chain _ _ 1400 mutChunk14 hdrop1500
  have hdrop1300 : ((mutations specBody).drop 1300).all mutOk = true :=
    all_drop_chain _ _ 1300 mutChunk13 hdrop1400
  have hdrop1200 : ((mutations specBody).drop 1200).all mutOk = true :=
    all_drop_chain _ _ 1200 mutChunk12 hdrop1300
  have hdrop1100 : ((mutations specBody).drop 1100).all mutOk = true :=
    all_drop_chain _ _ 1100 mutChunk11 hdrop1200
  have hdrop1000 : ((mutations specBody).drop 1000).all mutOk = true :=
    all_drop_chain _ _ 1000 mutChunk10 hdrop1100
  have hdrop900 : ((mutations specBody).drop 900).all mutOk = true :=
    all_drop_chain _ _ 900 mutChunk9 hdrop1000
  have hdrop800 : ((mutations specBody).drop 800).all mutOk = true :=
    all_drop_chain _ _ 800 mutChunk8 hdrop900
  have hdrop700 : ((mutations specBody).drop 700).all mutOk = true :=
    all_drop_chain _ _ 700 mutChunk7 hdrop800
  have hdrop600 : ((mutations specBody).drop 600).all mutOk = true :=
    all_drop_chain _ _ 600 mutChunk6 hdrop700
  have hdrop500 : ((mutations specBody).drop 500).all mutOk = true :=
    all_drop_chain _ _ 500 mutChunk5 hdrop600
  have hdrop400 : ((mutations specBody).drop 400).all mutOk = true :=
    all_drop_chain _ _ 400 mutChunk4 hdrop500
  have hdrop300 : ((mutations specBody).drop 300).all mutOk = true :=
    all_drop_chain _ _ 300 mutChunk3 hdrop400
  have hdrop200 : ((mutations specBody).drop 200).all mutOk = true :=
    all_drop_chain _ _ 200 mutChunk2 hdrop300
  have hdrop100 : ((mutations specBody).drop 100).all mutOk = true :=
    all_drop_chain _ _ 100 mutChunk1 hdrop200
  have hdrop0 : ((mutations specBody).drop 0).all mutOk = true :=
    all_drop_chain _ _ 0 mutChunk0 hdrop100
  simpa using hdrop0

/-- C1: under the raw-body policy, a request is verified exactly when the
claimed signature header equals the hex HMAC-SHA256, keyed by the salt, of
the exact byte sequence of the request body; any presented body whose digest
differs from the one the signature was made for is rejected; and for the
example in the spec (secret `"s"`, body the bytes of the JSON object with field
`a` mapped to 1), every one of the 1785 single-byte mutations of the body,
presented with the signature of the original body, is rejected. -/
theorem C1_raw_body_verification :
    (∀ (salt body : List Nat) (sig : String),
      verifyRawBody salt (some sig) body = .verified ↔ sig = hexHmac salt body) ∧
    (∀ (salt origBody mutBody : List Nat), hexHmac salt mutBody ≠ hexHmac salt origBody →
      verifyRawBody salt (some (hexHmac salt origBody)) mutBody = .rejected) ∧
    (∀ i v : Nat, i < specBody.length → v < 256 → specBody.getD i 0 ≠ v →
      verifyRawBody sBytes (some (hexHmac sBytes specBody)) (specBody.set i v) = .rejected) := by
  refine ⟨?_, ?_, ?_⟩
  · intro salt body sig
    unfold verifyRawBody
    rw [Option.getD_some]
    split
    · next hc => simp [hc]
    · next hc =>
      constructor
      · intro hh
        exact WebhookResult.noConfusion hh
      · intro hh
        exact absurd hh.symm hc
  · intro salt origBody mutBody hne
    exact verifyRawBody_rejected_of_ne salt mutBody _ (fun hh => hne (hh.symm))
  · intro i v hi hv hne
    have hmem := mem_mutations_intro specBody i v hi hv hne
    have hfast : digestBytesSt (stFast7 (specBody.set i v)) ≠ digestBytesSt (stFast7 specBody) :=
      of_decide_eq_true (List.all_eq_true.mp allMutationsDiffer _ hmem)
    have hlen : (specBody.set i v).length = 7 := by
      rw [List.length_set]
      decide
    refine verifyRawBody_rejected_of_ne sBytes (specBody.set i v) _ ?_
    rw [bytes7_eq_of_length specBody (by decide), bytes7_eq_of_length _ hlen]
    intro hh
    exact hfast (bytesToHex_inj _ _ (digestBytesSt_lt _) (digestBytesSt_lt _) hh.symm)

/-- Witness for C1 at concrete inputs: mutating the first byte of the example
body to zero is rejected under the original signature, and the verification
condition for an arbitrary concrete request. -/
theorem C1_raw_body_verification_witness :
    (0 < specBody.length ∧ (0 : Nat) < 256 ∧ specBody.getD 0 0 ≠ 0) ∧
    verifyRawBody sBytes (some (hexHmac sBytes specBody)) (specBody.set 0 0) = .rejected ∧
    (verifyRawBody sBytes (some "x") [] = .verified ↔ ("x" : String) = hexHmac sBytes []) :=
  ⟨⟨by decide, by decide, by decide⟩,
    C1_raw_body_verification.2.2 0 0 (by decide) (by decide) (by decide),
    C1_raw_body_verification.1 sBytes [] "x"⟩
